import Mathlib

/-!
Shallow embedding of `src/training_utils.py` (training-loop helpers with
scale-invariant norm control and a SAM variant).

Modelling conventions:
* a tensor's flat value buffer is a `List ℝ` (`Vec`); elementwise tensor
  arithmetic becomes `List.zipWith` / `List.map`;
* a named model parameter is a `Param` (name, value buffer, gradient buffer);
  a model's `named_parameters()` sequence is a `List Param`;
* Python's substring test `"conv" in n` is `isSI n`;
* fallible operations (Python exceptions: `IndexError` from list indexing,
  `RuntimeError` from a mismatched `view`, `NameError` from an undefined
  variable) are modelled with `Option` / `Except String`;
* square roots (`np.sqrt`, `torch.norm`) use `Real.sqrt`, so the handful of
  norm-related definitions are `noncomputable`; everything else is executable.
-/

namespace TrainingUtils

abbrev Vec := List ℝ

/-- One entry of `model.named_parameters()`: the parameter's name, its value
tensor (`p.data`) and its gradient tensor (`p.grad.data`), both flattened. -/
structure Param where
  name : String
  data : Vec
  grad : Vec

/-- `a` occurs at the start of `b` (char-list version of `str.startswith`). -/
def charsLe : List Char → List Char → Bool
  | [], _ => true
  | _ :: _, [] => false
  | a :: as, b :: bs => a == b && charsLe as bs

/-- `pat` occurs somewhere in `s` (char-list version of Python's `in`). -/
def hasSub (pat : List Char) : List Char → Bool
  | [] => charsLe pat []
  | c :: rest => charsLe pat (c :: rest) || hasSub pat rest

/-- Python's `"conv" in n`: the test marking a parameter as scale-invariant
(SI) throughout `training_utils.py`. -/
def isSI (n : String) : Bool := hasSub "conv".toList n.toList

/-- Elementwise tensor sum. -/
def vadd (a b : Vec) : Vec := List.zipWith (fun x y => x + y) a b

/-- Scalar-by-tensor product. -/
def vsmul (c : ℝ) (v : Vec) : Vec := v.map (fun x => c * x)

/-- `(p ** 2).sum()`: sum of squared entries of one tensor. -/
def sqSum (v : Vec) : ℝ := (v.map (fun x => x * x)).sum

/-- `get_si_params_data(model)` (src/training_utils.py:224-231): walks
`named_parameters()` and collects, for parameters whose name contains
`"conv"`, the value tensors and the gradient tensors, in traversal order.
Returns `(params, grads)` as the source does. -/
def get_si_params_data : List Param → List Vec × List Vec
  | [] => ([], [])
  | p :: rest =>
    let r := get_si_params_data rest
    if isSI p.name then (p.data :: r.1, p.grad :: r.2) else r

/-- Body of the `set_si_params_data` loop (src/training_utils.py:233-237):
`i` is the `enumerate` counter over the FULL `named_parameters()` sequence;
for an SI-marked parameter the source executes `p.data = params[i]` and
`p.grad.data = alpha * p.grad.data + (1-alpha) * grads[i]`.  An index `i`
beyond the end of `params`/`grads` raises `IndexError`, modelled as `none`. -/
def set_si_params_aux (params grads : List Vec) (alpha : ℝ) :
    ℕ → List Param → Option (List Param)
  | _, [] => some []
  | i, p :: rest => do
    let p' ←
      if isSI p.name then do
        let v ← params[i]?
        let g ← grads[i]?
        pure { p with data := v, grad := vadd (vsmul alpha p.grad) (vsmul (1 - alpha) g) }
      else
        pure p
    let rest' ← set_si_params_aux params grads alpha (i + 1) rest
    return p' :: rest'

/-- `set_si_params_data(model, params, grads, alpha)`
(src/training_utils.py:233-237). -/
def set_si_params_data (model : List Param) (params grads : List Vec) (alpha : ℝ) :
    Option (List Param) :=
  set_si_params_aux params grads alpha 0 model

example :
    get_si_params_data [⟨"conv1.weight", [2], [3]⟩, ⟨"fc.bias", [5], [7]⟩] =
      ([[2]], [[3]]) := by
  simp [get_si_params_data, isSI, hasSub, charsLe]

/-! ### Norm utilities (src/training_utils.py:114-124) -/

/-- `sum((p ** 2).sum().item() for n, p in model.named_parameters() if "conv" in n)`:
the squared flattened Euclidean norm of the SI subset. -/
def si_sq_sum (model : List Param) : ℝ :=
  ((model.filter (fun p => isSI p.name)).map (fun p => sqSum p.data)).sum

/-- `get_si_params_norm(model)` (src/training_utils.py:122-124):
`np.sqrt` of the summed squared entries of the SI-marked parameters. -/
noncomputable def get_si_params_norm (model : List Param) : ℝ :=
  Real.sqrt (si_sq_sum model)

/-- `fix_si_pnorm(model, si_pnorm_0)` (src/training_utils.py:114-120):
computes the current SI norm, then scales every SI-marked parameter's value
in place by `p_coef = si_pnorm_0 / si_pnorm`. -/
noncomputable def fix_si_pnorm (model : List Param) (si_pnorm_0 : ℝ) : List Param :=
  let si_pnorm := Real.sqrt (si_sq_sum model)
  let p_coef := si_pnorm_0 / si_pnorm
  model.map (fun p =>
    if isSI p.name then { p with data := p.data.map (fun x => x * p_coef) } else p)

/-! ### `flatten` / `unflatten_like` (src/training_utils.py:13-28) -/

/-- A torch tensor for the purposes of `flatten`/`unflatten_like`: its shape
and its flat (row-major) value buffer.  torch guarantees
`data.length = shape.prod` (`numel`); theorems carry that as a hypothesis. -/
structure Tensor where
  shape : List ℕ
  data : List ℝ

/-- `t.numel()`: the number of elements described by the shape. -/
def Tensor.numel (t : Tensor) : ℕ := t.shape.prod

/-- `flatten(lst)` (src/training_utils.py:13-15): each tensor is made
contiguous and viewed flat, then all are concatenated in list order. -/
def flatten (lst : List Tensor) : List ℝ :=
  (lst.map Tensor.data).flatten

/-- `vec.view(shape)`: reinterprets a flat buffer with a new shape; a
`RuntimeError` (element-count mismatch) is modelled as `none`. -/
def view (vec : List ℝ) (shape : List ℕ) : Option Tensor :=
  if vec.length = shape.prod then some ⟨shape, vec⟩ else none

/-- Loop of `unflatten_like` (src/training_utils.py:21-27) with the running
offset `i`: each template tensor takes the next `numel` entries of `vector`
(Python slicing truncates silently; the subsequent `view` checks the count). -/
def unflatten_like_aux (vector : List ℝ) : ℕ → List Tensor → Option (List Tensor)
  | _, [] => some []
  | i, t :: rest => do
    let n := t.numel
    let piece ← view ((vector.drop i).take n) t.shape
    let out ← unflatten_like_aux vector (i + n) rest
    return piece :: out

/-- `unflatten_like(vector, likeTensorList)` (src/training_utils.py:18-28). -/
def unflatten_like (vector : List ℝ) (likeTensorList : List Tensor) :
    Option (List Tensor) :=
  unflatten_like_aux vector 0 likeTensorList

/-! ### SAM helpers (src/training_utils.py:239-241, 294-298) -/

/-- Modelled from the spec: `get_params_data`, called at
src/training_utils.py:294, is not defined anywhere in the repository's
source.  Per the spec (§4.5 step 2) it captures *all* parameters'
pre-perturbation values and gradients, in parameter order. -/
def get_params_data (model : List Param) : List Vec × List Vec :=
  (model.map Param.data, model.map Param.grad)

/-- `update_si_params_data(model, grad_norm, r)` (src/training_utils.py:239-241):
for every parameter of the model (not just the SI subset),
`param.data = param.data + r * param.grad.data / grad_norm`. -/
noncomputable def update_si_params_data (model : List Param) (grad_norm r : ℝ) :
    List Param :=
  model.map (fun p =>
    { p with data := List.zipWith (fun d g => d + r * g / grad_norm) p.data p.grad })

/-- `loss.backward()` at a point where gradients `gs` of the loss are
accumulated into the existing `.grad` buffers (autograd semantics). -/
def backwardAdd (model : List Param) (gs : List Vec) : List Param :=
  List.zipWith (fun p g => { p with grad := vadd p.grad g }) model gs

/-- Per-batch body of `SAM_train_epoch` (src/training_utils.py:286-319),
from the first forward pass through the restore step; the subsequent
optimizer interaction (lines 322-327) is outside this definition.  The
criterion together with autograd is abstracted as `crit`, returning the
scalar loss and the gradient of the loss with respect to each parameter.
Result: the model after the restore step and the batch's contribution to
`loss_sum` (`loss.item()` under `fbgd`, `loss.data.item() * input.size(0)`
otherwise, both taken from the second forward pass). -/
noncomputable def SAM_batch_body (crit : List Param → ℝ × List Vec)
    (r alpha : ℝ) (fbgd : Bool) (dataset_size batch_size : ℕ)
    (model : List Param) : Option (List Param × ℝ) :=
  -- first forward (line 288) and backward (line 291)
  let fb1 := crit model
  let m1 := backwardAdd model fb1.2
  -- get grad and weights (line 294)
  let pg := get_params_data m1
  -- find norm_grad (line 296): torch.norm of the concatenated gradients
  let grad_norm := Real.sqrt (sqSum pg.2.flatten)
  -- update weights to w + r * grad / norm(grad) (line 298)
  let m2 := update_si_params_data m1 grad_norm r
  -- second forward (line 306)
  let fb2 := crit m2
  -- loss bookkeeping and second backward (lines 309-316)
  let contrib := if fbgd then fb2.1 else fb2.1 * (batch_size : ℝ)
  let m3 :=
    if fbgd then backwardAdd m2 (fb2.2.map (fun g => vsmul (1 / (dataset_size : ℝ)) g))
    else backwardAdd m2 fb2.2
  -- back to w weights (line 319)
  match set_si_params_data m3 pg.1 pg.2 alpha with
  | none => none
  | some m4 => some (m4, contrib)

/-! ### The shared epoch loop shell (src/training_utils.py:162-208 and 281-354)

`train_epoch` and `SAM_train_epoch` share, line for line, the accumulation,
staged-logging and mid-epoch-checkpoint shell around their per-batch
numerics.  The shell is embedded once, generically: `body` abstracts the
per-batch numeric work (criterion, backward, optimizer interaction — lines
163-185 resp. 282-331), returning the new training state, the increments to
`loss_sum` and `correct`, and `input.size(0)`.  `tqdm.tqdm` (an external
library) yields the wrapped loader's items unchanged, so under `verbose` the
loop runs over the same batch sequence. -/

/-- Mutable state of one epoch run: the opaque model/optimizer state `St`,
the accumulators, the staged-logging counter, the checkpoint counter, the
trace of `save_checkpoint_int` calls `(epoch, index, batch)`, and the trace
of printed stage lines (side channel). -/
structure EpochSt (St K : Type) where
  state : St
  loss_sum : K
  correct : K
  num_objects_current : ℕ
  verb_stage : ℕ
  save_ind : ℕ
  checkpoints : List (ℕ × ℕ × ℕ)
  log : List (ℕ × K × K)

/-- Per-batch numeric work and accumulator updates (src/training_utils.py:
163-187 resp. 282-333): run the batch body, then
`loss_sum += ...`, `correct += ...`, `num_objects_current += input.size(0)`. -/
def batch_accumulate {St β K : Type} [LinearOrderedField K]
    (body : St → β → St × K × K × ℕ) (es : EpochSt St K) (b : β) : EpochSt St K :=
  let r := body es.state b
  { es with
    state := r.1
    loss_sum := es.loss_sum + r.2.1
    correct := es.correct + r.2.2.1
    num_objects_current := es.num_objects_current + r.2.2.2 }

/-- Staged-logging branch (src/training_utils.py:189-198 resp. 335-344):
guard `verbose and 10 * (i+1) / num_batches >= verb_stage + 1` (true division
modelled exactly in `ℚ`); prints the stage line and bumps `verb_stage`. -/
def batch_verbose_log {St K : Type} [LinearOrderedField K] (verbose : Bool)
    (num_batches i : ℕ) (es : EpochSt St K) : EpochSt St K :=
  if verbose ∧ ((10 * (i + 1) : ℚ) / (num_batches : ℚ) ≥ (es.verb_stage : ℚ) + 1) then
    { es with
      log := es.log ++
        [(es.verb_stage + 1,
          es.loss_sum / (es.num_objects_current : K),
          es.correct / (es.num_objects_current : K) * 100)]
      verb_stage := es.verb_stage + 1 }
  else es

/-- Mid-epoch checkpoint branch (src/training_utils.py:200-208 resp. 346-354):
guard `save_freq_int > 0 and save_freq_int * (i+1) / num_batches >= save_ind + 1
and save_ind + 1 < save_freq_int`; calls `save_checkpoint_int(output_dir,
epoch, save_ind + 1, ...)` and bumps `save_ind`. -/
def batch_checkpoint {St K : Type} [LinearOrderedField K]
    (save_freq_int num_batches epoch i : ℕ) (es : EpochSt St K) : EpochSt St K :=
  if 0 < save_freq_int ∧
      ((save_freq_int * (i + 1) : ℚ) / (num_batches : ℚ) ≥ (es.save_ind : ℚ) + 1) ∧
      es.save_ind + 1 < save_freq_int then
    { es with
      checkpoints := es.checkpoints ++ [(epoch, es.save_ind + 1, i)]
      save_ind := es.save_ind + 1 }
  else es

/-- The batch loop of `train_epoch` (src/training_utils.py:162-208) and of
`SAM_train_epoch` (281-354): per-batch numeric work and accumulation, then
the staged-logging branch, then the mid-epoch checkpoint branch. -/
def train_epoch_loop {St β K : Type} [LinearOrderedField K]
    (body : St → β → St × K × K × ℕ)
    (verbose : Bool) (save_freq_int num_batches epoch : ℕ) :
    ℕ → EpochSt St K → List β → EpochSt St K
  | _, es, [] => es
  | i, es, b :: rest =>
    train_epoch_loop body verbose save_freq_int num_batches epoch (i + 1)
      (batch_checkpoint save_freq_int num_batches epoch i
        (batch_verbose_log verbose num_batches i
          (batch_accumulate body es b))) rest

/-- The fresh accumulator state built at the top of either epoch runner
(src/training_utils.py:142-145 / 261-264). -/
def initEpochSt {St K : Type} [LinearOrderedField K] (s : St) : EpochSt St K :=
  { state := s, loss_sum := 0, correct := 0, num_objects_current := 0,
    verb_stage := 0, save_ind := 0, checkpoints := [], log := [] }

/-- The post-loop `fbgd` tail, identical in `train_epoch`
(src/training_utils.py:211-216) and `SAM_train_epoch` (357-362): one
`optimizer.step()` then `optimizer.zero_grad()`; then, if `si_pnorm_0` is
set, the line `fix_si_pnorm(model, si_pnorm_0, model_name)` evaluates the
variable `model_name`, which is bound nowhere in either function's scope
(and is no module-level global), so Python raises `NameError` there. -/
def epoch_fbgd_tail {St : Type} (fbgd : Bool) (si_pnorm_0 : Option ℝ)
    (optimizer_step zero_grad : St → St) (s : St) : Except String St :=
  if fbgd then
    let s1 := zero_grad (optimizer_step s)
    match si_pnorm_0 with
    | some _ => Except.error "NameError: name model_name is not defined"
    | none => Except.ok s1
  else
    Except.ok s

/-! ### `moving_average` (src/training_utils.py:424-427) -/

/-- Effect of one pass of the `moving_average` loop body on a zipped pair:
`param1.data *= 1.0 - alpha` then `param1.data += param2.data * alpha`,
elementwise; only `param1.data` is written. -/
def moving_average_step (p1 p2 : Param) (alpha : ℝ) : Param :=
  { p1 with data := List.zipWith (fun a b => a * (1 - alpha) + b * alpha) p1.data p2.data }

/-- `moving_average(net1, net2, alpha)` (src/training_utils.py:424-427):
iterates `zip(net1.parameters(), net2.parameters())` (stopping at the
shorter sequence) and updates `param1.data` in place; the in-place procedure
is modelled as returning both parameter sequences after the call. -/
def moving_average : List Param → List Param → ℝ → List Param × List Param
  | p1 :: r1, p2 :: r2, alpha =>
    let rest := moving_average r1 r2 alpha
    (moving_average_step p1 p2 alpha :: rest.1, p2 :: rest.2)
  | net1, net2, _ => (net1, net2)

/-! ### Batch-norm recalibration (src/training_utils.py:430-493) -/

/-- One submodule as `bn_update` sees it: whether it is an instance of
`torch.nn.modules.batchnorm._BatchNorm`, its running statistics and its
momentum (`b/(n+b)` values are exact rationals). -/
structure BNModule where
  is_bn : Bool
  running_mean : Vec
  running_var : Vec
  momentum : ℚ

/-- A model as `bn_update` sees it: its submodules, its train/eval mode, and
all remaining state (parameters, buffers of non-BN modules, ...) opaque in
`core`. -/
structure BNModel (St : Type) where
  core : St
  modules : List BNModule
  training : Bool

/-- `check_bn(model)` (src/training_utils.py:430-438): `model.apply` visits
every submodule and `_check_bn` raises the flag on `_BatchNorm` instances. -/
def check_bn {St : Type} (model : BNModel St) : Bool :=
  model.modules.any (fun m => m.is_bn)

/-- `reset_bn(module)` (src/training_utils.py:441-444): zero the running
mean, set the running variance to ones; other modules untouched. -/
def reset_bn (m : BNModule) : BNModule :=
  if m.is_bn then
    { m with running_mean := m.running_mean.map (fun _ => 0),
             running_var := m.running_var.map (fun _ => 1) }
  else m

/-- `model.apply(lambda module: _set_momenta(module, momenta))`
(src/training_utils.py:452-454, 493): each `_BatchNorm` module takes back
its saved momentum, in traversal order. -/
def set_momenta : List BNModule → List ℚ → List BNModule
  | [], _ => []
  | m :: rest, saved =>
    if m.is_bn then
      match saved with
      | [] => m :: set_momenta rest []
      | v :: vs => { m with momentum := v } :: set_momenta rest vs
    else m :: set_momenta rest saved

/-- The forward loop of `bn_update` (src/training_utils.py:481-491): per
batch, set every `_BatchNorm` module's momentum to `b / (n + b)`, run one
forward pass (abstracted as `forward`, which is what updates running
statistics), and advance `n`.  The second component counts the forward
passes performed. -/
def bn_update_loop {St β : Type} (forward : BNModel St → β → BNModel St)
    (bsize : β → ℕ) : ℕ → BNModel St → List β → BNModel St × ℕ
  | _, m, [] => (m, 0)
  | n, m, b :: rest =>
    let bsz := bsize b
    let momentum : ℚ := (bsz : ℚ) / ((n : ℚ) + (bsz : ℚ))
    let m1 : BNModel St :=
      { m with modules := m.modules.map (fun mo =>
          if mo.is_bn then { mo with momentum := momentum } else mo) }
    let m2 := forward m1 b
    let r := bn_update_loop forward bsize (n + bsz) m2 rest
    (r.1, r.2 + 1)

/-- `bn_update(loader, model)` (src/training_utils.py:457-493).  Guard first:
with no `_BatchNorm` submodule it returns at once, before `model.train()`,
having run zero forward passes.  Otherwise: train mode, reset running
statistics, save momenta, run the forward loop, restore momenta. -/
def bn_update {St β : Type} (loader : List β)
    (forward : BNModel St → β → BNModel St) (bsize : β → ℕ)
    (model : BNModel St) : BNModel St × ℕ :=
  if check_bn model = false then (model, 0)
  else
    let m0 : BNModel St := { model with training := true }
    let momenta := (m0.modules.filter (fun mo => mo.is_bn)).map (fun mo => mo.momentum)
    let m1 : BNModel St := { m0 with modules := m0.modules.map reset_bn }
    let r := bn_update_loop forward bsize 0 m1 loader
    ({ r.1 with modules := set_momenta r.1.modules momenta }, r.2)

/-! ## Helper lemmas -/

theorem sqSum_nonneg (v : Vec) : 0 ≤ sqSum v := by
  induction v with
  | nil => simp [sqSum]
  | cons x xs ih =>
    simp only [sqSum, List.map_cons, List.sum_cons] at ih ⊢
    nlinarith [mul_self_nonneg x]

theorem si_sq_sum_nonneg (model : List Param) : 0 ≤ si_sq_sum model := by
  unfold si_sq_sum
  apply List.sum_nonneg
  intro x hx
  simp only [List.mem_map] at hx
  obtain ⟨p, _, rfl⟩ := hx
  exact sqSum_nonneg p.data

theorem sqSum_map_mul (v : Vec) (c : ℝ) :
    sqSum (v.map (fun x => x * c)) = sqSum v * c ^ 2 := by
  induction v with
  | nil => simp [sqSum]
  | cons x xs ih =>
    simp only [sqSum, List.map_cons, List.sum_cons] at ih ⊢
    rw [ih]
    ring

theorem si_sq_sum_cons (p : Param) (rest : List Param) :
    si_sq_sum (p :: rest) =
      (if isSI p.name then sqSum p.data else 0) + si_sq_sum rest := by
  by_cases h : isSI p.name = true
  · simp [si_sq_sum, List.filter_cons, h]
  · simp [si_sq_sum, List.filter_cons, h]

theorem si_sq_sum_scale (model : List Param) (c : ℝ) :
    si_sq_sum (model.map (fun p =>
      if isSI p.name then { p with data := p.data.map (fun x => x * c) } else p)) =
      si_sq_sum model * c ^ 2 := by
  induction model with
  | nil => simp [si_sq_sum]
  | cons p rest ih =>
    by_cases h : isSI p.name = true
    · simp only [List.map_cons, h, if_true]
      rw [si_sq_sum_cons, si_sq_sum_cons, ih, sqSum_map_mul]
      simp only [h, if_true]
      ring
    · simp only [List.map_cons, h, if_false]
      rw [si_sq_sum_cons, si_sq_sum_cons, ih]
      simp [h]

theorem moving_average_snd (net1 net2 : List Param) (alpha : ℝ) :
    (moving_average net1 net2 alpha).2 = net2 := by
  induction net1 generalizing net2 with
  | nil => cases net2 <;> rfl
  | cons p1 r1 ih =>
    cases net2 with
    | nil => rfl
    | cons p2 r2 => simp [moving_average, ih]

theorem zipWith_coeff_comm (alpha : ℝ) (a b : Vec) :
    List.zipWith (fun x y => x * (1 - alpha) + y * alpha) a b =
      List.zipWith (fun x y => (1 - alpha) * x + alpha * y) a b := by
  induction a generalizing b with
  | nil => cases b <;> rfl
  | cons x xs ih =>
    cases b with
    | nil => rfl
    | cons y ys =>
      simp only [List.zipWith_cons_cons, ih ys, List.cons.injEq, and_true]
      ring

theorem moving_average_fst (net1 net2 : List Param) (alpha : ℝ)
    (hlen : net1.length = net2.length) :
    (moving_average net1 net2 alpha).1 =
      List.zipWith (fun p1 p2 =>
        { p1 with data := (List.zipWith (fun a b => (1 - alpha) * a + alpha * b) p1.data p2.data) }) net1 net2 := by
  induction net1 generalizing net2 with
  | nil =>
    cases net2 with
    | nil => rfl
    | cons p2 r2 => simp at hlen
  | cons p1 r1 ih =>
    cases net2 with
    | nil => simp at hlen
    | cons p2 r2 =>
      simp only [List.length_cons, Nat.add_right_cancel_iff] at hlen
      simp only [moving_average, List.zipWith_cons_cons, ih r2 hlen,
        moving_average_step, List.cons.injEq, and_true]
      rw [zipWith_coeff_comm]

theorem zipWith_right_of_length_eq (a b : Vec) (h : a.length = b.length) :
    List.zipWith (fun x y => (1 - (1 : ℝ)) * x + 1 * y) a b = b := by
  induction a generalizing b with
  | nil =>
    cases b with
    | nil => rfl
    | cons y ys => simp at h
  | cons x xs ih =>
    cases b with
    | nil => simp at h
    | cons y ys =>
      simp only [List.length_cons, Nat.add_right_cancel_iff] at h
      simp only [List.zipWith_cons_cons, ih ys h]
      norm_num

/-! ## Claim theorems -/

/-- C10.  For models whose parameter sequences align positionally,
`moving_average(net1, net2, alpha)` sets each parameter of `net1` in place
to `(1 - alpha) * param1 + alpha * param2` (elementwise) and leaves every
parameter of `net2` unchanged; with the default `alpha = 1` (and matching
tensor shapes) every value tensor of `net1` becomes exactly the
corresponding value tensor of `net2`. -/
theorem C10_moving_average (net1 net2 : List Param) (alpha : ℝ)
    (hlen : net1.length = net2.length) :
    (moving_average net1 net2 alpha).1 =
      List.zipWith (fun p1 p2 =>
        { p1 with data := (List.zipWith (fun a b => (1 - alpha) * a + alpha * b) p1.data p2.data) }) net1 net2 ∧
    (moving_average net1 net2 alpha).2 = net2 ∧
    (alpha = 1 →
      (∀ i (h1 : i < net1.length) (h2 : i < net2.length),
          (net1.get ⟨i, h1⟩).data.length = (net2.get ⟨i, h2⟩).data.length) →
      (moving_average net1 net2 alpha).1.map Param.data = net2.map Param.data) := by
  refine ⟨moving_average_fst net1 net2 alpha hlen, moving_average_snd net1 net2 alpha, ?_⟩
  rintro rfl hdat
  rw [moving_average_fst net1 net2 1 hlen]
  induction net1 generalizing net2 with
  | nil =>
    cases net2 with
    | nil => rfl
    | cons p2 r2 => simp at hlen
  | cons p1 r1 ih =>
    cases net2 with
    | nil => simp at hlen
    | cons p2 r2 =>
      simp only [List.length_cons, Nat.add_right_cancel_iff] at hlen
      simp only [List.zipWith_cons_cons, List.map_cons, List.cons.injEq]
      constructor
      · exact zipWith_right_of_length_eq p1.data p2.data
          (hdat 0 (Nat.succ_pos _) (Nat.succ_pos _))
      · exact ih r2 hlen
          (fun i h1 h2 => hdat (i + 1) (Nat.succ_lt_succ h1) (Nat.succ_lt_succ h2))

/-- Witness for C10 at a concrete input. -/
theorem C10_moving_average_witness :
    ([(⟨"a", [2, 4], [0]⟩ : Param)].length = [(⟨"b", [10, 20], [1]⟩ : Param)].length) ∧
    (moving_average [(⟨"a", [2, 4], [0]⟩ : Param)] [(⟨"b", [10, 20], [1]⟩ : Param)] 1).1 =
      List.zipWith (fun p1 p2 =>
        { p1 with data := (List.zipWith (fun a b => (1 - (1 : ℝ)) * a + 1 * b) p1.data p2.data) }) [(⟨"a", [2, 4], [0]⟩ : Param)] [(⟨"b", [10, 20], [1]⟩ : Param)] := by
  have h := C10_moving_average [(⟨"a", [2, 4], [0]⟩ : Param)]
    [(⟨"b", [10, 20], [1]⟩ : Param)] 1 rfl
  exact ⟨rfl, h.1⟩

/-- C9.  For a model containing no batch-normalization submodule,
`bn_update(loader, model)` returns immediately: zero internal forward
passes, and the model's state (opaque core, submodule running statistics and
momenta, train/eval mode) is returned unchanged. -/
theorem C9_bn_update_noop {St β : Type} (loader : List β)
    (forward : BNModel St → β → BNModel St) (bsize : β → ℕ)
    (model : BNModel St) (h : check_bn model = false) :
    bn_update loader forward bsize model = (model, 0) := by
  simp [bn_update, h]

/-- Witness for C9 at a concrete input. -/
theorem C9_bn_update_noop_witness :
    check_bn (⟨(), [⟨false, [0], [1], 1/2⟩], false⟩ : BNModel Unit) = false ∧
    bn_update [(), ()] (fun m _ => m) (fun _ => 1)
      (⟨(), [⟨false, [0], [1], 1/2⟩], false⟩ : BNModel Unit) =
      ((⟨(), [⟨false, [0], [1], 1/2⟩], false⟩ : BNModel Unit), 0) := by
  have h : check_bn (⟨(), [⟨false, [0], [1], 1/2⟩], false⟩ : BNModel Unit) = false := rfl
  exact ⟨h, C9_bn_update_noop [(), ()] (fun m _ => m) (fun _ => 1) _ h⟩

/-- C3.  After the batch loop, under `fbgd`, both epoch runners perform one
`optimizer.step()` followed by `optimizer.zero_grad()`; but whenever
`si_pnorm_0` is set, the next line `fix_si_pnorm(model, si_pnorm_0,
model_name)` (src/training_utils.py:216 and :362) reads the undefined
variable `model_name`, so instead of rescaling the SI parameters the call
raises `NameError` — the code contradicts its own non-`fbgd` branch
(lines 178-179 and 326-327, which correctly call
`fix_si_pnorm(model, si_pnorm_0)`). -/
theorem C3_fbgd_tail_name_error {St : Type} (optimizer_step zero_grad : St → St)
    (s : St) (t : ℝ) :
    epoch_fbgd_tail true none optimizer_step zero_grad s =
      Except.ok (zero_grad (optimizer_step s)) ∧
    epoch_fbgd_tail true (some t) optimizer_step zero_grad s =
      Except.error "NameError: name model_name is not defined" := by
  exact ⟨rfl, rfl⟩

/-- C4, counterexample to the claim as stated: the claim quantifies over
*every* target value, but with the SI subset `[1]` and target `-1` the
rescaled SI norm is `1`, not `-1` (a norm is never negative). -/
theorem C4_counterexample :
    get_si_params_norm (fix_si_pnorm [⟨"conv1", [1], []⟩] (-1)) = 1 ∧
    (1 : ℝ) ≠ -1 := by
  have hSI : isSI "conv1" = true := by decide
  have h1 : si_sq_sum [(⟨"conv1", [1], []⟩ : Param)] = 1 := by
    simp [si_sq_sum, sqSum, List.filter_cons, hSI]
  have hfix : fix_si_pnorm [(⟨"conv1", [1], []⟩ : Param)] (-1) =
      [⟨"conv1", [1 * (-1 / Real.sqrt 1)], []⟩] := by
    simp only [fix_si_pnorm, h1]
    simp [hSI]
  have h2 : si_sq_sum [(⟨"conv1", [(1 : ℝ) * (-1 / Real.sqrt 1)], []⟩ : Param)] = 1 := by
    simp [si_sq_sum, sqSum, List.filter_cons, hSI, Real.sqrt_one]
  constructor
  · rw [hfix, get_si_params_norm, h2, Real.sqrt_one]
  · norm_num

/-- C4 as amended: for every model whose SI subset has nonzero norm and
every *nonnegative* target `t`, after `fix_si_pnorm` the SI norm equals `t`
exactly (in real arithmetic; "within floating tolerance" in the float
implementation), and parameters whose name does not contain "conv" are
unchanged. -/
theorem C4_fix_si_pnorm (model : List Param) (t : ℝ)
    (h0 : get_si_params_norm model ≠ 0) (ht : 0 ≤ t) :
    get_si_params_norm (fix_si_pnorm model t) = t ∧
    (fix_si_pnorm model t).length = model.length ∧
    ∀ i (hi : i < model.length) (hi2 : i < (fix_si_pnorm model t).length),
      isSI (model.get ⟨i, hi⟩).name = false →
      (fix_si_pnorm model t).get ⟨i, hi2⟩ = model.get ⟨i, hi⟩ := by
  have hS0 : 0 ≤ si_sq_sum model := si_sq_sum_nonneg model
  have hSne : si_sq_sum model ≠ 0 := by
    intro hc
    apply h0
    simp [get_si_params_norm, hc]
  have hSpos : 0 < si_sq_sum model := lt_of_le_of_ne hS0 (Ne.symm hSne)
  have hsq : 0 < Real.sqrt (si_sq_sum model) := Real.sqrt_pos.mpr hSpos
  refine ⟨?_, ?_, ?_⟩
  · show Real.sqrt (si_sq_sum (fix_si_pnorm model t)) = t
    have hfix : fix_si_pnorm model t =
        model.map (fun p =>
          if isSI p.name then
            { p with data := p.data.map (fun x => x * (t / Real.sqrt (si_sq_sum model))) }
          else p) := rfl
    rw [hfix, si_sq_sum_scale]
    have hcoef : 0 ≤ t / Real.sqrt (si_sq_sum model) := div_nonneg ht hsq.le
    rw [Real.sqrt_mul hS0, Real.sqrt_sq_eq_abs, abs_of_nonneg hcoef]
    field_simp
  · simp [fix_si_pnorm]
  · intro i hi hi2 hns
    rw [List.get_eq_getElem] at hns
    rw [List.get_eq_getElem, List.get_eq_getElem]
    show (List.map _ model)[i] = model[i]
    rw [List.getElem_map]
    rw [if_neg]
    simp [hns]

/-- Witness for C4 at a concrete input. -/
theorem C4_fix_si_pnorm_witness :
    get_si_params_norm [⟨"conv1", [3, 4], []⟩] ≠ 0 ∧ (0 : ℝ) ≤ 10 ∧
    get_si_params_norm (fix_si_pnorm [⟨"conv1", [3, 4], []⟩] 10) = 10 := by
  have hSI : isSI "conv1" = true := by decide
  have h25 : si_sq_sum [⟨"conv1", [3, 4], []⟩] = 25 := by
    simp only [si_sq_sum, sqSum, List.filter_cons, hSI, List.map_cons, List.map_nil,
      List.sum_cons, List.sum_nil, List.filter_nil]
    norm_num
  have h0 : get_si_params_norm [⟨"conv1", [3, 4], []⟩] ≠ 0 := by
    simp only [get_si_params_norm, h25]
    positivity
  exact ⟨h0, by norm_num, (C4_fix_si_pnorm [⟨"conv1", [3, 4], []⟩] 10 h0 (by norm_num)).1⟩

/-- Behaviour of the `set_si_params_data` loop from an arbitrary starting
counter `j`, when the lists are long enough for every parameter's global
index: the `i`-th parameter, when SI-marked, takes value `params[j+i]` and
gradient `alpha * grad + (1-alpha) * grads[j+i]`; others are untouched. -/
theorem set_si_params_aux_spec (params grads : List Vec) (alpha : ℝ) :
    ∀ (model : List Param) (j : ℕ),
      j + model.length ≤ params.length → j + model.length ≤ grads.length →
      ∃ m2, set_si_params_aux params grads alpha j model = some m2 ∧
        m2.length = model.length ∧
        ∀ i (hi : i < model.length) (hi2 : i < m2.length),
          m2.get ⟨i, hi2⟩ =
            if isSI (model.get ⟨i, hi⟩).name then
              { model.get ⟨i, hi⟩ with
                data := params.getD (j + i) [],
                grad := vadd (vsmul alpha (model.get ⟨i, hi⟩).grad)
                  (vsmul (1 - alpha) (grads.getD (j + i) [])) }
            else model.get ⟨i, hi⟩ := by
  intro model
  induction model with
  | nil =>
    intro j hp hg
    exact ⟨[], rfl, rfl, fun i hi => absurd hi (Nat.not_lt_zero i)⟩
  | cons p rest ih =>
    intro j hp hg
    simp only [List.length_cons] at hp hg
    have hjp : j < params.length := by omega
    have hjg : j < grads.length := by omega
    obtain ⟨m2, hm2, hlen2, hspec⟩ := ih (j + 1) (by omega) (by omega)
    by_cases hsi : isSI p.name = true
    · refine ⟨⟨p.name, params.getD j [],
          vadd (vsmul alpha p.grad) (vsmul (1 - alpha) (grads.getD j []))⟩ :: m2,
        ?_, by simp [hlen2], ?_⟩
      · simp only [set_si_params_aux, hsi, if_true,
          List.getElem?_eq_getElem hjp, List.getElem?_eq_getElem hjg,
          List.getD_eq_getElem params [] hjp, List.getD_eq_getElem grads [] hjg,
          Option.bind_eq_bind, Option.some_bind, hm2]
        rfl
      · intro i hi hi2
        match i with
        | 0 => simp [List.get, hsi]
        | Nat.succ k =>
          simp only [List.get_cons_succ]
          have hk : k < rest.length := by simpa using hi
          have hk2 : k < m2.length := by simpa using hi2
          rw [hspec k hk hk2]
          have : j + 1 + k = j + (k + 1) := by omega
          rw [this]
    · refine ⟨p :: m2, ?_, by simp [hlen2], ?_⟩
      · simp only [set_si_params_aux, hsi, if_false,
          Option.bind_eq_bind, Option.some_bind, hm2]
        rfl
      · intro i hi hi2
        match i with
        | 0 => simp [List.get, hsi]
        | Nat.succ k =>
          simp only [List.get_cons_succ]
          have hk : k < rest.length := by simpa using hi
          have hk2 : k < m2.length := by simpa using hi2
          rw [hspec k hk hk2]
          have : j + 1 + k = j + (k + 1) := by omega
          rw [this]

/-- C2, counterexample to the claim as stated: with a non-SI parameter ahead
of an SI parameter, `set_si_params_data` looks up the saved lists at the SI
parameter's *global* position (here 1), but `get_si_params_data` produced
lists of length 1 (one per SI parameter), so the call raises `IndexError`
instead of restoring the snapshot. -/
theorem C2_counterexample :
    set_si_params_data
      [⟨"fc.weight", [1], [1]⟩, ⟨"conv1.weight", [2], [3]⟩]
      (get_si_params_data [⟨"fc.weight", [1], [1]⟩, ⟨"conv1.weight", [2], [3]⟩]).1
      (get_si_params_data [⟨"fc.weight", [1], [1]⟩, ⟨"conv1.weight", [2], [3]⟩]).2
      1 = none := by
  rfl

/-- C2 as amended: `set_si_params_data` indexes the saved lists by each
parameter's position in the full `named_parameters()` sequence, not by its
rank among SI-marked parameters.  When the lists have an entry at every
parameter index (as the all-parameter snapshots used by `SAM_train_epoch`
do), it sets each SI-marked parameter's value to `params[i]` and its
gradient to `alpha * current_grad + (1 - alpha) * grads[i]` with `i` the
global index, and leaves every other parameter unchanged; with the shorter
SI-only lists of `get_si_params_data` it raises `IndexError` as soon as an
SI parameter's global index reaches the list length, so the snapshot
correspondence of the claim holds only when every SI parameter's global
index equals its SI rank. -/
theorem C2_set_si_params_data (model : List Param) (params grads : List Vec)
    (alpha : ℝ) (hp : model.length ≤ params.length)
    (hg : model.length ≤ grads.length) :
    ∃ m2, set_si_params_data model params grads alpha = some m2 ∧
      m2.length = model.length ∧
      ∀ i (hi : i < model.length) (hi2 : i < m2.length),
        m2.get ⟨i, hi2⟩ =
          if isSI (model.get ⟨i, hi⟩).name then
            { model.get ⟨i, hi⟩ with
              data := params.getD i [],
              grad := vadd (vsmul alpha (model.get ⟨i, hi⟩).grad)
                (vsmul (1 - alpha) (grads.getD i [])) }
          else model.get ⟨i, hi⟩ := by
  obtain ⟨m2, hm2, hlen2, hspec⟩ :=
    set_si_params_aux_spec params grads alpha model 0 (by simpa using hp)
      (by simpa using hg)
  refine ⟨m2, hm2, hlen2, ?_⟩
  intro i hi hi2
  have := hspec i hi hi2
  simpa using this

/-- Witness for C2 (amended) at a concrete input. -/
theorem C2_set_si_params_data_witness :
    ([(⟨"conv1", [1], [2]⟩ : Param), ⟨"fc", [5], [6]⟩].length ≤
        ([[10], [20]] : List Vec).length) ∧
    ([(⟨"conv1", [1], [2]⟩ : Param), ⟨"fc", [5], [6]⟩].length ≤
        ([[30], [40]] : List Vec).length) ∧
    ∃ m2, set_si_params_data [(⟨"conv1", [1], [2]⟩ : Param), ⟨"fc", [5], [6]⟩]
        [[10], [20]] [[30], [40]] 2 = some m2 ∧
      m2.length = [(⟨"conv1", [1], [2]⟩ : Param), ⟨"fc", [5], [6]⟩].length ∧
      ∀ i (hi : i < [(⟨"conv1", [1], [2]⟩ : Param), ⟨"fc", [5], [6]⟩].length)
          (hi2 : i < m2.length),
        m2.get ⟨i, hi2⟩ =
          if isSI ([(⟨"conv1", [1], [2]⟩ : Param), ⟨"fc", [5], [6]⟩].get ⟨i, hi⟩).name then
            { [(⟨"conv1", [1], [2]⟩ : Param), ⟨"fc", [5], [6]⟩].get ⟨i, hi⟩ with
              data := ([[10], [20]] : List Vec).getD i [],
              grad := vadd (vsmul 2 ([(⟨"conv1", [1], [2]⟩ : Param),
                  ⟨"fc", [5], [6]⟩].get ⟨i, hi⟩).grad)
                (vsmul (1 - 2) (([[30], [40]] : List Vec).getD i [])) }
          else [(⟨"conv1", [1], [2]⟩ : Param), ⟨"fc", [5], [6]⟩].get ⟨i, hi⟩ := by
  refine ⟨by decide, by decide, ?_⟩
  exact C2_set_si_params_data [(⟨"conv1", [1], [2]⟩ : Param), ⟨"fc", [5], [6]⟩]
    [[10], [20]] [[30], [40]] 2 (by decide) (by decide)

/-- The `unflatten_like` loop, run on a vector that begins with an arbitrary
prefix followed by `flatten ts`, with the running offset already past the
prefix, recovers `ts` exactly. -/
theorem unflatten_like_aux_append (ts : List Tensor) :
    ∀ pre : List ℝ, (∀ t ∈ ts, t.data.length = t.numel) →
      unflatten_like_aux (pre ++ flatten ts) pre.length ts = some ts := by
  induction ts with
  | nil => intro pre h; rfl
  | cons t rest ih =>
    intro pre h
    have ht : t.data.length = t.numel := h t (List.mem_cons_self t rest)
    have hassoc : pre ++ flatten (t :: rest) = (pre ++ t.data) ++ flatten rest := by
      show pre ++ (t.data ++ flatten rest) = (pre ++ t.data) ++ flatten rest
      rw [List.append_assoc]
    rw [hassoc]
    have hdrop : (((pre ++ t.data) ++ flatten rest).drop pre.length).take t.numel
        = t.data := by
      rw [List.append_assoc, List.drop_left, ← ht, List.take_left]
    have hview : view ((((pre ++ t.data) ++ flatten rest).drop pre.length).take t.numel)
        t.shape = some t := by
      rw [hdrop, view, if_pos (show t.data.length = t.shape.prod from ht)]
    have hrec : unflatten_like_aux ((pre ++ t.data) ++ flatten rest)
        (pre.length + t.numel) rest = some rest := by
      have hlen : (pre ++ t.data).length = pre.length + t.numel := by
        rw [List.length_append, ht]
      rw [← hlen]
      exact ih (pre ++ t.data) (fun u hu => h u (List.mem_cons_of_mem t hu))
    simp only [unflatten_like_aux, hview, hrec, Option.bind_eq_bind, Option.some_bind]
    rfl

/-- The `k`-th tensor's contribution sits at offset
`sum of the first k numels` inside `flatten ts`. -/
theorem flatten_segment (ts : List Tensor)
    (hwf : ∀ t ∈ ts, t.data.length = t.numel) :
    ∀ k (hk : k < ts.length),
      ((flatten ts).drop (((ts.take k).map Tensor.numel).sum)).take
          (ts.get ⟨k, hk⟩).numel = (ts.get ⟨k, hk⟩).data := by
  induction ts with
  | nil => intro k hk; exact absurd hk (Nat.not_lt_zero k)
  | cons t rest ih =>
    intro k hk
    have ht : t.data.length = t.numel := hwf t (List.mem_cons_self t rest)
    match k with
    | 0 =>
      simp only [List.take_zero, List.map_nil, List.sum_nil, List.drop_zero, List.get]
      show (flatten (t :: rest)).take t.numel = t.data
      show ((t.data ++ flatten rest)).take t.numel = t.data
      rw [← ht, List.take_left]
    | Nat.succ m =>
      have hm : m < rest.length := by simpa using hk
      simp only [List.take_succ_cons, List.map_cons, List.sum_cons, List.get_cons_succ]
      show ((t.data ++ flatten rest).drop (t.numel + ((rest.take m).map Tensor.numel).sum)).take
          (rest.get ⟨m, hm⟩).numel = (rest.get ⟨m, hm⟩).data
      rw [← ht, List.drop_append]
      exact ih (fun u hu => hwf u (List.mem_cons_of_mem t hu)) m hm

/-- C6.  For every list of well-formed tensors, `unflatten_like` applied to
`flatten(tensors)` with the original tensors as shape templates returns the
original tensors (values and shapes); and `flatten` concatenates the tensors
in list order, each contributing its `numel` contiguous elements. -/
theorem C6_flatten_unflatten (ts : List Tensor)
    (hwf : ∀ t ∈ ts, t.data.length = t.numel) :
    unflatten_like (flatten ts) ts = some ts ∧
    (flatten ts).length = (ts.map Tensor.numel).sum ∧
    ∀ k (hk : k < ts.length),
      ((flatten ts).drop (((ts.take k).map Tensor.numel).sum)).take
          (ts.get ⟨k, hk⟩).numel = (ts.get ⟨k, hk⟩).data := by
  refine ⟨?_, ?_, flatten_segment ts hwf⟩
  · have h := unflatten_like_aux_append ts [] hwf
    simpa [unflatten_like] using h
  · rw [flatten, List.length_flatten, List.map_map]
    congr 1
    exact List.map_congr_left (fun t htm => hwf t htm)

/-- Witness for C6 at a concrete input. -/
theorem C6_flatten_unflatten_witness :
    (∀ t ∈ [(⟨[2], [5, 7]⟩ : Tensor), ⟨[1, 3], [1, 2, 3]⟩], t.data.length = t.numel) ∧
    unflatten_like (flatten [(⟨[2], [5, 7]⟩ : Tensor), ⟨[1, 3], [1, 2, 3]⟩])
        [(⟨[2], [5, 7]⟩ : Tensor), ⟨[1, 3], [1, 2, 3]⟩] =
      some [(⟨[2], [5, 7]⟩ : Tensor), ⟨[1, 3], [1, 2, 3]⟩] := by
  have hwf : ∀ t ∈ [(⟨[2], [5, 7]⟩ : Tensor), ⟨[1, 3], [1, 2, 3]⟩],
      t.data.length = t.numel := by
    intro t htm
    simp only [List.mem_cons, List.not_mem_nil, or_false] at htm
    rcases htm with rfl | rfl
    · rfl
    · rfl
  exact ⟨hwf, (C6_flatten_unflatten _ hwf).1⟩

/-! ### C8: verbose logging is a pure side channel -/

/-- Agreement of two epoch states on everything except the logging side
channel (`verb_stage`, `log`): training state, accumulated loss and correct
count, processed-example count, checkpoint counter and checkpoint trace. -/
def numericAgree {St K : Type} (es es' : EpochSt St K) : Prop :=
  es.state = es'.state ∧ es.loss_sum = es'.loss_sum ∧ es.correct = es'.correct ∧
  es.num_objects_current = es'.num_objects_current ∧ es.save_ind = es'.save_ind ∧
  es.checkpoints = es'.checkpoints

theorem batch_verbose_log_state {St K : Type} [LinearOrderedField K] (v : Bool)
    (N i : ℕ) (es : EpochSt St K) : (batch_verbose_log v N i es).state = es.state := by
  unfold batch_verbose_log; split <;> rfl

theorem batch_verbose_log_loss_sum {St K : Type} [LinearOrderedField K] (v : Bool)
    (N i : ℕ) (es : EpochSt St K) :
    (batch_verbose_log v N i es).loss_sum = es.loss_sum := by
  unfold batch_verbose_log; split <;> rfl

theorem batch_verbose_log_correct {St K : Type} [LinearOrderedField K] (v : Bool)
    (N i : ℕ) (es : EpochSt St K) :
    (batch_verbose_log v N i es).correct = es.correct := by
  unfold batch_verbose_log; split <;> rfl

theorem batch_verbose_log_num_objects {St K : Type} [LinearOrderedField K] (v : Bool)
    (N i : ℕ) (es : EpochSt St K) :
    (batch_verbose_log v N i es).num_objects_current = es.num_objects_current := by
  unfold batch_verbose_log; split <;> rfl

theorem batch_verbose_log_save_ind {St K : Type} [LinearOrderedField K] (v : Bool)
    (N i : ℕ) (es : EpochSt St K) :
    (batch_verbose_log v N i es).save_ind = es.save_ind := by
  unfold batch_verbose_log; split <;> rfl

theorem batch_verbose_log_checkpoints {St K : Type} [LinearOrderedField K] (v : Bool)
    (N i : ℕ) (es : EpochSt St K) :
    (batch_verbose_log v N i es).checkpoints = es.checkpoints := by
  unfold batch_verbose_log; split <;> rfl

theorem numericAgree_accumulate {St β K : Type} [LinearOrderedField K]
    (body : St → β → St × K × K × ℕ) (b : β) (es es' : EpochSt St K)
    (h : numericAgree es es') :
    numericAgree (batch_accumulate body es b) (batch_accumulate body es' b) := by
  obtain ⟨h1, h2, h3, h4, h5, h6⟩ := h
  unfold numericAgree batch_accumulate
  simp [h1, h2, h3, h4, h5, h6]

theorem numericAgree_verbose_log {St K : Type} [LinearOrderedField K] (v v' : Bool)
    (N i : ℕ) (es es' : EpochSt St K) (h : numericAgree es es') :
    numericAgree (batch_verbose_log v N i es) (batch_verbose_log v' N i es') := by
  obtain ⟨h1, h2, h3, h4, h5, h6⟩ := h
  refine ⟨?_, ?_, ?_, ?_, ?_, ?_⟩
  · rw [batch_verbose_log_state, batch_verbose_log_state, h1]
  · rw [batch_verbose_log_loss_sum, batch_verbose_log_loss_sum, h2]
  · rw [batch_verbose_log_correct, batch_verbose_log_correct, h3]
  · rw [batch_verbose_log_num_objects, batch_verbose_log_num_objects, h4]
  · rw [batch_verbose_log_save_ind, batch_verbose_log_save_ind, h5]
  · rw [batch_verbose_log_checkpoints, batch_verbose_log_checkpoints, h6]

theorem numericAgree_checkpoint {St K : Type} [LinearOrderedField K]
    (f N e i : ℕ) (es es' : EpochSt St K) (h : numericAgree es es') :
    numericAgree (batch_checkpoint f N e i es) (batch_checkpoint f N e i es') := by
  obtain ⟨h1, h2, h3, h4, h5, h6⟩ := h
  unfold batch_checkpoint
  rw [h5, h6]
  by_cases hc : 0 < f ∧ ((f * (i + 1) : ℚ) / (N : ℚ) ≥ (es'.save_ind : ℚ) + 1) ∧
      es'.save_ind + 1 < f
  · rw [if_pos hc, if_pos hc]
    exact ⟨h1, h2, h3, h4, rfl, rfl⟩
  · rw [if_neg hc, if_neg hc]
    exact ⟨h1, h2, h3, h4, h5, h6⟩

theorem train_epoch_loop_numericAgree {St β K : Type} [LinearOrderedField K]
    (body : St → β → St × K × K × ℕ) (v v' : Bool) (f N e : ℕ) :
    ∀ (loader : List β) (i : ℕ) (es es' : EpochSt St K),
      numericAgree es es' →
      numericAgree (train_epoch_loop body v f N e i es loader)
        (train_epoch_loop body v' f N e i es' loader) := by
  intro loader
  induction loader with
  | nil => intro i es es' h; exact h
  | cons b rest ih =>
    intro i es es' h
    exact ih (i + 1) _ _
      (numericAgree_checkpoint f N e i _ _
        (numericAgree_verbose_log v v' N i _ _
          (numericAgree_accumulate body b es es' h)))

/-- C8.  For fixed inputs, running the epoch loop (shared by `train_epoch`
and `SAM_train_epoch`, with the per-batch numerics abstracted as `body`)
with `verbose=True` and with `verbose=False` yields the same final training
state (hence the same parameter and optimizer updates and the same
`weights_norm`), the same accumulated `loss_sum` and `correct` (hence the
same returned loss and accuracy), the same processed-example count, and the
same checkpoint trace: the staged logging writes only to the print side
channel and never alters numeric results. -/
theorem C8_verbose_is_side_channel {St β K : Type} [LinearOrderedField K]
    (body : St → β → St × K × K × ℕ) (save_freq_int num_batches epoch : ℕ)
    (s0 : St) (loader : List β) :
    (train_epoch_loop body true save_freq_int num_batches epoch 0
        (initEpochSt s0) loader).state =
      (train_epoch_loop body false save_freq_int num_batches epoch 0
        (initEpochSt s0) loader).state ∧
    (train_epoch_loop body true save_freq_int num_batches epoch 0
        (initEpochSt s0) loader).loss_sum =
      (train_epoch_loop body false save_freq_int num_batches epoch 0
        (initEpochSt s0) loader).loss_sum ∧
    (train_epoch_loop body true save_freq_int num_batches epoch 0
        (initEpochSt s0) loader).correct =
      (train_epoch_loop body false save_freq_int num_batches epoch 0
        (initEpochSt s0) loader).correct ∧
    (train_epoch_loop body true save_freq_int num_batches epoch 0
        (initEpochSt s0) loader).num_objects_current =
      (train_epoch_loop body false save_freq_int num_batches epoch 0
        (initEpochSt s0) loader).num_objects_current ∧
    (train_epoch_loop body true save_freq_int num_batches epoch 0
        (initEpochSt s0) loader).save_ind =
      (train_epoch_loop body false save_freq_int num_batches epoch 0
        (initEpochSt s0) loader).save_ind ∧
    (train_epoch_loop body true save_freq_int num_batches epoch 0
        (initEpochSt s0) loader).checkpoints =
      (train_epoch_loop body false save_freq_int num_batches epoch 0
        (initEpochSt s0) loader).checkpoints :=
  train_epoch_loop_numericAgree body true false save_freq_int num_batches epoch
    loader 0 (initEpochSt s0) (initEpochSt s0) ⟨rfl, rfl, rfl, rfl, rfl, rfl⟩

/-! ### C5: the mid-epoch checkpoint schedule -/

theorem div_mul_bounds (a N : ℕ) (hN : 0 < N) :
    (a / N) * N ≤ a ∧ a < (a / N + 1) * N :=
  ⟨Nat.div_mul_le_self a N, (Nat.div_lt_iff_lt_mul hN).mp (Nat.lt_succ_self _)⟩

/-- The checkpoint guard's true division, made exact: on integers,
`f * (i+1) / N >= s + 1` holds iff `(s+1) * N ≤ f * (i+1)`. -/
theorem save_guard_iff (f N s i : ℕ) (hN : 0 < N) :
    (((f * (i + 1) : ℚ)) / (N : ℚ) ≥ ((s : ℚ) + 1)) ↔ (s + 1) * N ≤ f * (i + 1) := by
  rw [ge_iff_le, le_div_iff₀ (by exact_mod_cast hN : (0 : ℚ) < (N : ℚ))]
  constructor
  · intro h; exact_mod_cast h
  · intro h; exact_mod_cast h

/-- Taking a batch whose guard fires advances `save_ind` to the new floor
`min (f-1) (f*(i+1)/N)`, and the fired segment boundary was crossed for the
first time at this batch. -/
theorem save_ind_step_pos (f N i s : ℕ) (hf : 1 ≤ f) (hfN : f ≤ N)
    (hs : s = min (f - 1) (f * i / N))
    (hq : (s + 1) * N ≤ f * (i + 1)) (hlt : s + 1 < f) :
    min (f - 1) (f * (i + 1) / N) = s + 1 ∧ f * i < (s + 1) * N := by
  have hN : 0 < N := lt_of_lt_of_le hf hfN
  obtain ⟨hd1, hd2⟩ := div_mul_bounds (f * i) N hN
  obtain ⟨he1, he2⟩ := div_mul_bounds (f * (i + 1)) N hN
  have hsd : s = f * i / N := by omega
  have hfirst : f * i < (s + 1) * N := by rw [hsd]; exact hd2
  have h3 : s + 1 ≤ f * (i + 1) / N := by
    by_contra hcon
    push_neg at hcon
    have h31 : (f * (i + 1) / N + 1) * N ≤ (s + 1) * N :=
      Nat.mul_le_mul_right N (by omega)
    exact absurd hq (not_le.mpr (lt_of_lt_of_le he2 h31))
  have h4 : f * (i + 1) / N < s + 2 := by
    have h41 : f * (i + 1) < (s + 2) * N := by
      calc f * (i + 1) = f * i + f := by ring
        _ < (s + 1) * N + N := add_lt_add_of_lt_of_le hfirst hfN
        _ = (s + 2) * N := by ring
    have h43 : (f * (i + 1) / N) * N < (s + 2) * N := lt_of_le_of_lt he1 h41
    exact lt_of_mul_lt_mul_right h43 (Nat.zero_le N)
  exact ⟨by omega, hfirst⟩

/-- Taking a batch whose guard does not fire leaves `save_ind` equal to the
new floor as well. -/
theorem save_ind_step_neg (f N i s : ℕ) (hf : 1 ≤ f) (hfN : f ≤ N)
    (hs : s = min (f - 1) (f * i / N))
    (hneg : ¬((s + 1) * N ≤ f * (i + 1) ∧ s + 1 < f)) :
    s = min (f - 1) (f * (i + 1) / N) := by
  have hN : 0 < N := lt_of_lt_of_le hf hfN
  obtain ⟨hd1, hd2⟩ := div_mul_bounds (f * i) N hN
  obtain ⟨he1, he2⟩ := div_mul_bounds (f * (i + 1)) N hN
  have hmono : f * i / N ≤ f * (i + 1) / N :=
    Nat.div_le_div_right (Nat.mul_le_mul_left f (Nat.le_succ i))
  rcases Nat.lt_or_ge (s + 1) f with hlt | hge
  · have hq : f * (i + 1) < (s + 1) * N := by
      by_contra hcon
      push_neg at hcon
      exact hneg ⟨hcon, hlt⟩
    have hsd : s = f * i / N := by omega
    have hle : f * (i + 1) / N ≤ s := by
      by_contra hcon
      push_neg at hcon
      have h1 : (s + 1) * N ≤ (f * (i + 1) / N) * N := Nat.mul_le_mul_right N hcon
      exact absurd (lt_of_le_of_lt (le_trans h1 he1) hq) (lt_irrefl _)
    omega
  · omega

theorem batch_accumulate_save_ind {St β K : Type} [LinearOrderedField K]
    (body : St → β → St × K × K × ℕ) (es : EpochSt St K) (b : β) :
    (batch_accumulate body es b).save_ind = es.save_ind := rfl

theorem batch_accumulate_checkpoints {St β K : Type} [LinearOrderedField K]
    (body : St → β → St × K × K × ℕ) (es : EpochSt St K) (b : β) :
    (batch_accumulate body es b).checkpoints = es.checkpoints := rfl

/-- Invariant run of the batch loop: starting at batch `i` with
`save_ind = min (f-1) (floor(f*i/N))` and a checkpoint trace keyed
`(e, 1) .. (e, save_ind)` whose events each record a first boundary
crossing, finishing the remaining `N - i` batches yields
`save_ind = f - 1` and the full trace `(e, 1) .. (e, f-1)`. -/
theorem train_epoch_loop_checkpoint_trace {St β K : Type} [LinearOrderedField K]
    (body : St → β → St × K × K × ℕ) (verbose : Bool) (f N e : ℕ)
    (hf : 1 ≤ f) (hfN : f ≤ N) :
    ∀ (loader : List β) (i : ℕ) (es : EpochSt St K),
      i + loader.length = N →
      es.save_ind = min (f - 1) (f * i / N) →
      es.checkpoints.map (fun c => (c.1, c.2.1)) =
        (List.range' 1 es.save_ind).map (fun k => (e, k)) →
      (∀ c ∈ es.checkpoints,
        c.1 = e ∧ c.2.1 * N ≤ f * (c.2.2 + 1) ∧ f * c.2.2 < c.2.1 * N) →
      (train_epoch_loop body verbose f N e i es loader).save_ind = f - 1 ∧
      (train_epoch_loop body verbose f N e i es loader).checkpoints.map
          (fun c => (c.1, c.2.1)) =
        (List.range' 1 (f - 1)).map (fun k => (e, k)) ∧
      ∀ c ∈ (train_epoch_loop body verbose f N e i es loader).checkpoints,
        c.1 = e ∧ c.2.1 * N ≤ f * (c.2.2 + 1) ∧ f * c.2.2 < c.2.1 * N := by
  have hN : 0 < N := lt_of_lt_of_le hf hfN
  intro loader
  induction loader with
  | nil =>
    intro i es hi hs hk hc
    have hiN : i = N := by simpa using hi
    subst hiN
    have hsf : es.save_ind = f - 1 := by
      rw [hs, Nat.mul_div_cancel f hN]
      omega
    exact ⟨hsf, by rw [← hsf]; exact hk, hc⟩
  | cons b rest ih =>
    intro i es hi hs hk hc
    simp only [train_epoch_loop]
    have hstep : i + 1 + rest.length = N := by
      simp only [List.length_cons] at hi
      omega
    set es0 := batch_verbose_log verbose N i (batch_accumulate body es b) with hes0def
    have hsv : es0.save_ind = es.save_ind := by
      rw [hes0def, batch_verbose_log_save_ind, batch_accumulate_save_ind]
    have hck : es0.checkpoints = es.checkpoints := by
      rw [hes0def, batch_verbose_log_checkpoints, batch_accumulate_checkpoints]
    by_cases hg : 0 < f ∧ ((f * (i + 1) : ℚ) / (N : ℚ) ≥ (es0.save_ind : ℚ) + 1) ∧
        es0.save_ind + 1 < f
    · have hQ : (es.save_ind + 1) * N ≤ f * (i + 1) := by
        have hq0 := hg.2.1
        rw [hsv] at hq0
        exact (save_guard_iff f N es.save_ind i hN).mp hq0
      have hlt : es.save_ind + 1 < f := by rw [← hsv]; exact hg.2.2
      obtain ⟨hmin, hfirst⟩ := save_ind_step_pos f N i es.save_ind hf hfN hs hQ hlt
      have hbc : batch_checkpoint f N e i es0 =
          { es0 with
            checkpoints := es0.checkpoints ++ [(e, es0.save_ind + 1, i)]
            save_ind := es0.save_ind + 1 } := by
        unfold batch_checkpoint
        rw [if_pos hg]
      rw [hbc]
      refine ih (i + 1) _ hstep ?_ ?_ ?_
      · show es0.save_ind + 1 = min (f - 1) (f * (i + 1) / N)
        rw [hsv, hmin]
      · show (es0.checkpoints ++ [(e, es0.save_ind + 1, i)]).map (fun c => (c.1, c.2.1)) =
          (List.range' 1 (es0.save_ind + 1)).map (fun k => (e, k))
        rw [hsv, hck, List.map_append, hk, List.range'_concat, List.map_append]
        simp [Nat.add_comm]
      · intro c hcm
        have hcm2 : c ∈ es0.checkpoints ++ [(e, es0.save_ind + 1, i)] := hcm
        rcases List.mem_append.mp hcm2 with hold | hnew
        · rw [hck] at hold
          exact hc c hold
        · have hcnew : c = (e, es0.save_ind + 1, i) := by simpa using hnew
          subst hcnew
          rw [hsv]
          exact ⟨rfl, hQ, hfirst⟩
    · have hnotand : ¬((es.save_ind + 1) * N ≤ f * (i + 1) ∧ es.save_ind + 1 < f) := by
        rintro ⟨hq, hlt⟩
        apply hg
        refine ⟨hf, ?_, by rw [hsv]; exact hlt⟩
        rw [hsv]
        exact (save_guard_iff f N es.save_ind i hN).mpr hq
      have hmin := save_ind_step_neg f N i es.save_ind hf hfN hs hnotand
      have hbc : batch_checkpoint f N e i es0 = es0 := by
        unfold batch_checkpoint
        rw [if_neg hg]
      rw [hbc]
      refine ih (i + 1) es0 hstep ?_ ?_ ?_
      · rw [hsv]; exact hmin
      · rw [hck, hsv]; exact hk
      · rw [hck]; exact hc

/-- C5.  For an epoch over `num_batches` batches with
`1 ≤ save_freq_int ≤ num_batches`, the loop shared by `train_epoch` and
`SAM_train_epoch` writes exactly `save_freq_int - 1` mid-epoch checkpoints,
keyed `(epoch, k)` for `k = 1 .. save_freq_int - 1` in order, and each is
written at the first batch whose cumulative progress `(i+1)/num_batches`
reaches the segment boundary `k/save_freq_int`; the final segment (key
`save_freq_int`) never triggers a mid-epoch save. -/
theorem C5_mid_epoch_checkpoints {St β K : Type} [LinearOrderedField K]
    (body : St → β → St × K × K × ℕ) (verbose : Bool)
    (save_freq_int num_batches epoch : ℕ) (s0 : St) (loader : List β)
    (hf : 1 ≤ save_freq_int) (hfN : save_freq_int ≤ num_batches)
    (hlen : loader.length = num_batches) :
    ((train_epoch_loop body verbose save_freq_int num_batches epoch 0
        (initEpochSt s0) loader).checkpoints).map (fun c => (c.1, c.2.1)) =
      (List.range' 1 (save_freq_int - 1)).map (fun k => (epoch, k)) ∧
    ∀ c ∈ (train_epoch_loop body verbose save_freq_int num_batches epoch 0
        (initEpochSt s0) loader).checkpoints,
      c.1 = epoch ∧
      (c.2.1 : ℚ) / (save_freq_int : ℚ) ≤ ((c.2.2 : ℚ) + 1) / (num_batches : ℚ) ∧
      (c.2.2 : ℚ) / (num_batches : ℚ) < (c.2.1 : ℚ) / (save_freq_int : ℚ) := by
  obtain ⟨h1, h2, h3⟩ :=
    train_epoch_loop_checkpoint_trace body verbose save_freq_int num_batches epoch
      hf hfN loader 0 (initEpochSt s0) (by simpa using hlen)
      (by simp [initEpochSt]) (by simp [initEpochSt]) (by simp [initEpochSt])
  have hf0 : (0 : ℚ) < (save_freq_int : ℚ) := by exact_mod_cast hf
  have hN0 : (0 : ℚ) < (num_batches : ℚ) := by
    exact_mod_cast lt_of_lt_of_le hf hfN
  refine ⟨h2, fun c hcm => ?_⟩
  obtain ⟨hce, hcu, hcl⟩ := h3 c hcm
  refine ⟨hce, ?_, ?_⟩
  · rw [div_le_div_iff₀ hf0 hN0]
    have hq : (c.2.1 : ℚ) * (num_batches : ℚ) ≤
        (save_freq_int : ℚ) * ((c.2.2 : ℚ) + 1) := by exact_mod_cast hcu
    linarith [hq, mul_comm ((c.2.2 : ℚ) + 1) (save_freq_int : ℚ)]
  · rw [div_lt_div_iff₀ hN0 hf0]
    have hq : (save_freq_int : ℚ) * (c.2.2 : ℚ) < (c.2.1 : ℚ) * (num_batches : ℚ) := by
      exact_mod_cast hcl
    linarith [hq, mul_comm (c.2.2 : ℚ) (save_freq_int : ℚ)]

/-- Witness for C5 at a concrete input (4 batches, `save_freq_int = 3`). -/
theorem C5_mid_epoch_checkpoints_witness :
    (1 ≤ 3) ∧ (3 ≤ 4) ∧ (([(), (), (), ()] : List Unit).length = 4) ∧
    (((train_epoch_loop (fun _ _ => ((), (0 : ℚ), 0, 1)) true 3 4 7 0
        (initEpochSt ()) [(), (), (), ()]).checkpoints).map (fun c => (c.1, c.2.1)) =
      (List.range' 1 (3 - 1)).map (fun k => (7, k)) ∧
    ∀ c ∈ (train_epoch_loop (fun _ _ => ((), (0 : ℚ), 0, 1)) true 3 4 7 0
        (initEpochSt ()) [(), (), (), ()]).checkpoints,
      c.1 = 7 ∧
      (c.2.1 : ℚ) / ((3 : ℕ) : ℚ) ≤ ((c.2.2 : ℚ) + 1) / ((4 : ℕ) : ℚ) ∧
      (c.2.2 : ℚ) / ((4 : ℕ) : ℚ) < (c.2.1 : ℚ) / ((3 : ℕ) : ℚ)) :=
  ⟨by norm_num, by norm_num, rfl,
    C5_mid_epoch_checkpoints (fun _ _ => ((), (0 : ℚ), 0, 1)) true 3 4 7 ()
      [(), (), (), ()] (by norm_num) (by norm_num) rfl⟩

/-! ### C1: the SAM per-batch body -/

theorem sqSum_append (a b : Vec) : sqSum (a ++ b) = sqSum a + sqSum b := by
  simp [sqSum]

theorem sqSum_flatten (l : List Vec) : sqSum l.flatten = (l.map sqSum).sum := by
  induction l with
  | nil => simp [sqSum]
  | cons v rest ih => simp [sqSum_append, ih]

theorem backwardAdd_length (m : List Param) (gs : List Vec) :
    (backwardAdd m gs).length = min m.length gs.length := by
  simp [backwardAdd]

/-- C1.  In the SAM per-batch body, after the first forward/backward pass
(`m1` is the model with its gradients populated at the current point), the
body captures all parameters' pre-perturbation values and gradients, its
`grad_norm` is the Euclidean norm of the concatenation of all parameters'
gradients (equivalently `sqrt` of the sum over all parameters of the squared
gradient entries), every parameter is ascent-stepped in place by
`value += r * grad / grad_norm` (names and gradients untouched), and the
body completes with the second forward pass's loss at the perturbed point as
the batch's reported/accumulated loss contribution
(`loss.item()` under `fbgd`, else `loss.data.item() * input.size(0)`).
`get_params_data` is modelled from the spec (it is missing from the source),
so this confirms the claim against that model. -/
theorem C1_SAM_batch_body (crit : List Param → ℝ × List Vec) (r alpha : ℝ)
    (fbgd : Bool) (dataset_size batch_size : ℕ) (model : List Param)
    (hg : ∀ m : List Param, ((crit m).2).length = m.length)
    (m1 perturbed : List Param) (gn : ℝ)
    (hm1 : m1 = backwardAdd model (crit model).2)
    (hgn : gn = Real.sqrt (sqSum (m1.map Param.grad).flatten))
    (hpert : perturbed = update_si_params_data m1 gn r) :
    gn = Real.sqrt ((m1.map (fun p => sqSum p.grad)).sum) ∧
    (∀ i (hi : i < m1.length) (hi2 : i < perturbed.length),
      (perturbed.get ⟨i, hi2⟩).name = (m1.get ⟨i, hi⟩).name ∧
      (perturbed.get ⟨i, hi2⟩).grad = (m1.get ⟨i, hi⟩).grad ∧
      (perturbed.get ⟨i, hi2⟩).data =
        List.zipWith (fun w g => w + r * g / gn)
          (m1.get ⟨i, hi⟩).data (m1.get ⟨i, hi⟩).grad) ∧
    ∃ restored, SAM_batch_body crit r alpha fbgd dataset_size batch_size model =
      some (restored,
        if fbgd then (crit perturbed).1 else (crit perturbed).1 * (batch_size : ℝ)) := by
  refine ⟨?_, ?_, ?_⟩
  · rw [hgn, sqSum_flatten, List.map_map]
    rfl
  · intro i hi hi2
    simp only [hpert, update_si_params_data, List.get_eq_getElem, List.getElem_map]
    exact ⟨by trivial, by trivial, by trivial⟩
  · subst hpert
    subst hgn
    subst hm1
    have hL1 : (backwardAdd model (crit model).2).length = model.length := by
      rw [backwardAdd_length, hg model, Nat.min_self]
    have hL2 : ∀ gn2 r2, (update_si_params_data (backwardAdd model (crit model).2)
        gn2 r2).length = model.length := by
      intro gn2 r2
      rw [update_si_params_data, List.length_map, hL1]
    cases fbgd
    · obtain ⟨m4, hm4, -, -⟩ :=
        set_si_params_aux_spec ((backwardAdd model (crit model).2).map Param.data)
          ((backwardAdd model (crit model).2).map Param.grad) alpha
          (backwardAdd
            (update_si_params_data (backwardAdd model (crit model).2)
              (Real.sqrt (sqSum ((backwardAdd model (crit model).2).map Param.grad).flatten)) r)
            ((crit (update_si_params_data (backwardAdd model (crit model).2)
              (Real.sqrt (sqSum ((backwardAdd model (crit model).2).map Param.grad).flatten)) r)).2))
          0
          (by rw [Nat.zero_add, backwardAdd_length, hg, hL2, Nat.min_self,
              List.length_map, hL1])
          (by rw [Nat.zero_add, backwardAdd_length, hg, hL2, Nat.min_self,
              List.length_map, hL1])
      refine ⟨m4, ?_⟩
      simp only [SAM_batch_body, get_params_data, Bool.false_eq_true, if_false]
      rw [show (set_si_params_data
          (backwardAdd
            (update_si_params_data (backwardAdd model (crit model).2)
              (Real.sqrt (sqSum ((backwardAdd model (crit model).2).map Param.grad).flatten)) r)
            ((crit (update_si_params_data (backwardAdd model (crit model).2)
              (Real.sqrt (sqSum ((backwardAdd model (crit model).2).map Param.grad).flatten)) r)).2))
          ((backwardAdd model (crit model).2).map Param.data)
          ((backwardAdd model (crit model).2).map Param.grad) alpha) = some m4 from hm4]
    · obtain ⟨m4, hm4, -, -⟩ :=
        set_si_params_aux_spec ((backwardAdd model (crit model).2).map Param.data)
          ((backwardAdd model (crit model).2).map Param.grad) alpha
          (backwardAdd
            (update_si_params_data (backwardAdd model (crit model).2)
              (Real.sqrt (sqSum ((backwardAdd model (crit model).2).map Param.grad).flatten)) r)
            (((crit (update_si_params_data (backwardAdd model (crit model).2)
              (Real.sqrt (sqSum ((backwardAdd model (crit model).2).map Param.grad).flatten)) r)).2).map
              (fun g => vsmul (1 / (dataset_size : ℝ)) g)))
          0
          (by rw [Nat.zero_add, backwardAdd_length, List.length_map, hg, hL2, Nat.min_self,
              List.length_map, hL1])
          (by rw [Nat.zero_add, backwardAdd_length, List.length_map, hg, hL2, Nat.min_self,
              List.length_map, hL1])
      refine ⟨m4, ?_⟩
      simp only [SAM_batch_body, get_params_data, if_true]
      rw [show (set_si_params_data
          (backwardAdd
            (update_si_params_data (backwardAdd model (crit model).2)
              (Real.sqrt (sqSum ((backwardAdd model (crit model).2).map Param.grad).flatten)) r)
            (((crit (update_si_params_data (backwardAdd model (crit model).2)
              (Real.sqrt (sqSum ((backwardAdd model (crit model).2).map Param.grad).flatten)) r)).2).map
              (fun g => vsmul (1 / (dataset_size : ℝ)) g)))
          ((backwardAdd model (crit model).2).map Param.data)
          ((backwardAdd model (crit model).2).map Param.grad) alpha) = some m4 from hm4]

/-- A concrete criterion for exercising the SAM body: loss `3`, gradient of
the loss equal to each parameter's value buffer. -/
def critW : List Param → ℝ × List Vec := fun m => (3, m.map Param.data)

/-- A concrete two-parameter model (one SI-marked, one not). -/
def modelW : List Param := [⟨"conv1", [3], [0]⟩, ⟨"fc", [4], [0]⟩]

/-- The model after the first forward/backward of the SAM body on `modelW`. -/
def m1W : List Param := backwardAdd modelW (critW modelW).2

/-- The gradient norm the SAM body computes on `modelW`. -/
noncomputable def gnW : ℝ := Real.sqrt (sqSum (m1W.map Param.grad).flatten)

/-- The perturbed model of the SAM body on `modelW` with radius `5`. -/
noncomputable def pertW : List Param := update_si_params_data m1W gnW 5

/-- Witness for C1 at a concrete input. -/
theorem C1_SAM_batch_body_witness :
    (∀ m : List Param, ((critW m).2).length = m.length) ∧
    (gnW = Real.sqrt ((m1W.map (fun p => sqSum p.grad)).sum) ∧
      (∀ i (hi : i < m1W.length) (hi2 : i < pertW.length),
        (pertW.get ⟨i, hi2⟩).name = (m1W.get ⟨i, hi⟩).name ∧
        (pertW.get ⟨i, hi2⟩).grad = (m1W.get ⟨i, hi⟩).grad ∧
        (pertW.get ⟨i, hi2⟩).data =
          List.zipWith (fun w g => w + 5 * g / gnW)
            (m1W.get ⟨i, hi⟩).data (m1W.get ⟨i, hi⟩).grad) ∧
      ∃ restored, SAM_batch_body critW 5 1 false 1 2 modelW =
        some (restored,
          if false then (critW pertW).1 else (critW pertW).1 * ((2 : ℕ) : ℝ))) := by
  have hg : ∀ m : List Param, ((critW m).2).length = m.length := by
    intro m
    simp [critW]
  exact ⟨hg, C1_SAM_batch_body critW 5 1 false 1 2 modelW hg m1W pertW gnW rfl rfl rfl⟩

end TrainingUtils
